import Mathlib

/-!
Verification of the multi-model response fusion pipeline of `software_aibot`.

The fusion core is specified in `智能融合架构说明.md` (which carries the
language-detection and strategy-selection code of the backend service) and in
the repository spec; the front-end glue lives in `src/services/apiService.js`
and the main React component. Definitions below are shallow embeddings of
those sources; components whose Python source is absent from the repository
snapshot (only the compiled `fusion_service` byte code and its documentation
are present) are modelled from the spec, as marked in their doc comments.
-/

namespace Aibot

/-- A single model's answer: `{ modelId, content }`, as produced by the
multi-model fan-out and consumed by the fusion pipeline. -/
structure ModelResponse where
  modelId : String
  content : String
deriving DecidableEq, Repr

/-- From `智能融合架构说明.md`, `contains_chinese`: a character counts as
Chinese when it lies between `一` and `鿿` inclusive. -/
def isChineseChar (c : Char) : Bool :=
  0x4e00 ≤ c.toNat && c.toNat ≤ 0x9fff

/-- From `智能融合架构说明.md`:
`any('一' <= char <= '鿿' for char in text)`. -/
def isChineseText (s : String) : Bool :=
  s.data.any isChineseChar

/-- The two fusion branches of the strategy router. -/
inductive Strategy where
  | CloudFusion
  | LocalGenerativeFusion
deriving DecidableEq, Repr

/-- From `智能融合架构说明.md`: `has_chinese = contains_chinese(query) or
any(contains_chinese(resp.get("content", "")) for resp in responses)`;
Chinese routes to the cloud API, otherwise to the local generative fuser. -/
def decideStrategy (query : String) (responses : List ModelResponse) : Strategy :=
  if isChineseText query || responses.any (fun r => isChineseText r.content) then
    Strategy.CloudFusion
  else
    Strategy.LocalGenerativeFusion

example : isChineseText "" = false := by decide
example : isChineseText "hello" = false := by decide
example : isChineseText "你好" = true := by decide
example : isChineseText "hello 你好" = true := by decide
example : decideStrategy "what" [⟨"m1", "好"⟩] = Strategy.CloudFusion := by decide

/-- A ranked answer: a `ModelResponse` together with its 1-based `rank`
and its `qualityScore` (pairwise win count). -/
structure RankedResponse where
  modelId : String
  content : String
  rank : Nat
  qualityScore : Nat
deriving DecidableEq, Repr

/-- Preference oracle of the pairwise comparison model: for input positions
`i < j`, `.gt` means response `i` beats response `j`, `.lt` means `j` beats
`i`, `.eq` is a tie. -/
def Pref : Type := Nat → Nat → Ordering

/-- Modelled from the spec: the win count of response `i` in the all-pairs
tournament over `n` responses — the number of opponents `j` against which the
comparison model prefers `i` (the Python ranking service is absent from the
snapshot; this follows §4.2 of the spec). -/
def wins (pref : Pref) (n i : Nat) : Nat :=
  ((List.range n).filter (fun j =>
    if j < i then pref j i == Ordering.lt
    else if i < j then pref i j == Ordering.gt
    else false)).length

/-- Comparison used to sort input positions: descending by win count, ties
broken by original input order. -/
def rankRel (pref : Pref) (n : Nat) (i j : Nat) : Prop :=
  wins pref n j < wins pref n i ∨ (wins pref n i = wins pref n j ∧ i ≤ j)

instance rankRelDecidable (pref : Pref) (n : Nat) : DecidableRel (rankRel pref n) :=
  fun i j => inferInstanceAs (Decidable
    (wins pref n j < wins pref n i ∨ (wins pref n i = wins pref n j ∧ i ≤ j)))

instance rankRelTotal (pref : Pref) (n : Nat) : IsTotal Nat (rankRel pref n) := by
  constructor
  intro i j
  unfold rankRel
  omega

instance rankRelTrans (pref : Pref) (n : Nat) : IsTrans Nat (rankRel pref n) := by
  constructor
  intro i j k hij hjk
  unfold rankRel at *
  omega

/-- Modelled from the spec: input positions `0..n-1` sorted descending by win
count, ties broken by original input order (stability), per §4.2. -/
def rankOrder (pref : Pref) (n : Nat) : List Nat :=
  List.insertionSort (rankRel pref n) (List.range n)

/-- Modelled from the spec: the Ranker's output — responses listed in rank
order, rank `1..N` by sorted position, `qualityScore` = win count, per §4.2. -/
def rankList (pref : Pref) (responses : List ModelResponse) : List RankedResponse :=
  ((rankOrder pref responses.length).enumFrom 1).map (fun pi =>
    let r := responses.getD pi.2 ⟨"", ""⟩
    ⟨r.modelId, r.content, pi.1, wins pref responses.length pi.2⟩)

/-- Modelled from the spec: `selectTopK` returns the first `min(k, len)`
elements in rank order; `k ≤ 0` gives the empty list, per §4.3. -/
def selectTopK (ranked : List RankedResponse) (k : Int) : List RankedResponse :=
  ranked.take k.toNat

theorem rankOrder_perm (pref : Pref) (n : Nat) :
    (rankOrder pref n).Perm (List.range n) :=
  List.perm_insertionSort _ _

theorem rankOrder_length (pref : Pref) (n : Nat) :
    (rankOrder pref n).length = n := by
  simpa using (rankOrder_perm pref n).length_eq

theorem rankOrder_sorted (pref : Pref) (n : Nat) :
    (rankOrder pref n).Pairwise (fun i j =>
      wins pref n j < wins pref n i ∨ (wins pref n i = wins pref n j ∧ i < j)) := by
  have hs : (rankOrder pref n).Pairwise (rankRel pref n) :=
    List.sorted_insertionSort (rankRel pref n) (List.range n)
  have hnd : (rankOrder pref n).Nodup :=
    (rankOrder_perm pref n).nodup_iff.mpr (List.nodup_range n)
  have hb := hs.and hnd
  refine hb.imp ?_
  intro i j h
  obtain ⟨hle, hne⟩ := h
  unfold rankRel at hle
  omega

example : rankOrder (fun _ _ => Ordering.lt) 3 = [2, 1, 0] := by decide
example : rankOrder (fun _ _ => Ordering.eq) 3 = [0, 1, 2] := by decide
example : (rankList (fun _ _ => Ordering.gt) [⟨"a", "x"⟩, ⟨"b", "y"⟩]).map
    (fun r => (r.modelId, r.rank, r.qualityScore)) = [("a", 1, 1), ("b", 2, 0)] := by decide

/-- The caller-constructed fusion request (spec §3 / §6). -/
structure FusionRequest where
  query : String
  responses : List ModelResponse
  instruction : String
  topK : Int
  fusionMethod : String
deriving DecidableEq, Repr

/-- The fusion pipeline's sole externally observable output (spec §3). -/
structure FusionResult where
  fusedContent : String
  rankedResponses : List RankedResponse
  bestResponse : Option RankedResponse
  fusionMethod : String
  modelsUsed : List String
  error : Option String
deriving DecidableEq, Repr

/-- Behaviour of the pipeline's external dependencies for one request:
the pairwise-preference oracle, whether the ranking model fails, and the
outcome of the local fuser and the cloud fusion client (`none` = the call
fails — `FuserUnavailableError`, `CloudFusionTimeoutError` or
`CloudFusionHTTPError`; `some s` = success with generated text `s`). -/
structure Deps where
  pref : Pref
  rankerFails : Bool
  localFuse : Option String
  cloudFuse : Option String

/-- Modelled from the spec: the `RankFallback` pseudo-ranking — input order
as rank, `qualityScore = 0` for all (spec §4.7, the Python service being
absent from the snapshot). -/
def fallbackRank (responses : List ModelResponse) : List RankedResponse :=
  responses.enum.map (fun pr => ⟨pr.2.modelId, pr.2.content, pr.1 + 1, 0⟩)

/-- One step of the naive concatenation: append one labeled response. -/
def concatStep (acc : String) (r : RankedResponse) : String :=
  acc ++ "[" ++ r.modelId ++ "]:\n" ++ r.content ++ "\n---\n"

/-- Modelled from the spec: the `SimpleFallback` naive concatenation of the
ranked top-k responses with model-id labels and separators (spec §4.7). -/
def simpleConcat (top : List RankedResponse) : String :=
  top.foldl concatStep ""

/-- The attempt of the routed real fusion strategy: which external fuser is
called and the method name recorded on success. -/
def attemptFusion (d : Deps) (strat : Strategy) : Option (String × String) :=
  match strat with
  | Strategy.CloudFusion => d.cloudFuse.map (fun s => (s, "cloud_fusion"))
  | Strategy.LocalGenerativeFusion => d.localFuse.map (fun s => (s, "local_fusion"))

/-- The ranking the orchestrator uses: the Ranker's output, or the
`RankFallback` input-order pseudo-ranking when the ranking model fails. -/
def rankedOf (d : Deps) (req : FusionRequest) : List RankedResponse :=
  if d.rankerFails then fallbackRank req.responses else rankList d.pref req.responses

/-- The top-k selection the orchestrator feeds into the fuser. -/
def topOf (d : Deps) (req : FusionRequest) : List RankedResponse :=
  selectTopK (rankedOf d req) req.topK

/-- The `bestResponse` the orchestrator reports: the rank-1 entry when
ranking succeeded, null when it fell back to input order. -/
def bestOf (d : Deps) (req : FusionRequest) : Option RankedResponse :=
  if d.rankerFails then none else (rankedOf d req).find? (fun r => r.rank == 1)

/-- Modelled from the spec: the Fallback Chain Orchestrator state machine of
§4.7 — rank (falling back to input order), top-k select, route by language,
attempt the routed fuser, and on its failure emit the simple concatenation
with `fusionMethod = "simple_concatenation"` and a populated `error`. Only
an empty response list escapes as a hard error (`EmptyInputError`, §7). -/
def runFusion (d : Deps) (req : FusionRequest) : Except String FusionResult :=
  if req.responses = [] then
    Except.error "EmptyInputError"
  else
    match attemptFusion d (decideStrategy req.query req.responses) with
    | some pr =>
      Except.ok { fusedContent := pr.1, rankedResponses := rankedOf d req,
                  bestResponse := bestOf d req, fusionMethod := pr.2,
                  modelsUsed := (topOf d req).map (fun r => r.modelId),
                  error := none }
    | none =>
      Except.ok { fusedContent := simpleConcat (topOf d req),
                  rankedResponses := rankedOf d req, bestResponse := bestOf d req,
                  fusionMethod := "simple_concatenation",
                  modelsUsed := (topOf d req).map (fun r => r.modelId),
                  error := some "fusion attempt failed" }

example :
    runFusion ⟨fun _ _ => Ordering.eq, false, none, none⟩
      ⟨"你好", [⟨"m1", "a"⟩, ⟨"m2", "b"⟩], "instr", 3, "rank_and_fuse"⟩ =
    Except.ok { fusedContent := "[m1]:\na\n---\n[m2]:\nb\n---\n",
                rankedResponses := [⟨"m1", "a", 1, 0⟩, ⟨"m2", "b", 2, 0⟩],
                bestResponse := some ⟨"m1", "a", 1, 0⟩,
                fusionMethod := "simple_concatenation",
                modelsUsed := ["m1", "m2"],
                error := some "fusion attempt failed" } := by rfl

example :
    runFusion ⟨fun _ _ => Ordering.eq, false, some "merged", none⟩
      ⟨"hi", [⟨"m1", "a"⟩], "instr", 3, "rank_and_fuse"⟩ =
    Except.ok { fusedContent := "merged",
                rankedResponses := [⟨"m1", "a", 1, 0⟩],
                bestResponse := some ⟨"m1", "a", 1, 0⟩,
                fusionMethod := "local_fusion",
                modelsUsed := ["m1"],
                error := none } := by rfl

/-- A per-model entry of the streaming `all_complete` event payload consumed
by `MainApp.handleSend` in the front end. -/
structure StreamResponse where
  modelId : String
  content : String
  status : String
deriving DecidableEq, Repr

/-- From the `all_complete` handler in the main React component:
`streamData.responses.filter(resp => resp.status === "success")`. -/
def successFilter (responses : List StreamResponse) : List StreamResponse :=
  responses.filter (fun r => r.status == "success")

/-- From the `all_complete` handler in the main React component: fusion is
started when the merge toggle is on and `responses.length > 1`, and then only
when `successfulResponses.length > 1`. -/
def fusionInvoked (mergeResponses : Bool) (responses : List StreamResponse) : Bool :=
  if mergeResponses && decide (1 < responses.length) then
    decide (1 < (successFilter responses).length)
  else
    false

/-- The JSON body the front end sends to `POST /api/fusion/advanced`. -/
structure AdvancedFusionBody where
  query : String
  responses : List StreamResponse
  fusionMethod : String
  topK : Nat
deriving DecidableEq, Repr

/-- From `fusionResponses` in `src/services/apiService.js`: the advanced
fusion request always carries `fusionMethod: "rank_and_fuse"` and
`topK: Math.min(3, responses.length)`. -/
def advancedFusionBody (userQuery : String) (responses : List StreamResponse) :
    AdvancedFusionBody :=
  { query := userQuery, responses := responses,
    fusionMethod := "rank_and_fuse", topK := min 3 responses.length }

example : fusionInvoked true [⟨"a", "x", "success"⟩, ⟨"b", "y", "success"⟩] = true := by decide
example : fusionInvoked true [⟨"a", "x", "success"⟩, ⟨"b", "y", "error"⟩] = false := by decide
example : fusionInvoked false [⟨"a", "x", "success"⟩, ⟨"b", "y", "success"⟩] = false := by decide

theorem rankList_length (pref : Pref) (rs : List ModelResponse) :
    (rankList pref rs).length = rs.length := by
  simp [rankList, List.enumFrom_length, rankOrder_length]

theorem rankList_map_rank (pref : Pref) (rs : List ModelResponse) :
    (rankList pref rs).map (fun r => r.rank) = List.range' 1 rs.length := by
  unfold rankList
  rw [List.map_map]
  have h : ((rankOrder pref rs.length).enumFrom 1).map Prod.fst
      = List.range' 1 rs.length := by
    rw [List.enumFrom_map_fst, rankOrder_length]
  exact h

theorem rankList_map_score (pref : Pref) (rs : List ModelResponse) :
    (rankList pref rs).map (fun r => r.qualityScore)
      = (rankOrder pref rs.length).map (wins pref rs.length) := by
  unfold rankList
  rw [List.map_map]
  have h : ((rankOrder pref rs.length).enumFrom 1).map
        ((wins pref rs.length) ∘ Prod.snd)
      = (rankOrder pref rs.length).map (wins pref rs.length) := by
    rw [← List.map_map, List.enumFrom_map_snd]
  exact h

theorem rankList_cons (pref : Pref) (rs : List ModelResponse) (h : rs ≠ []) :
    ∃ r t, rankList pref rs = r :: t ∧ r.rank = 1 := by
  have hlen : (rankOrder pref rs.length).length = rs.length := rankOrder_length pref rs.length
  have hpos : 0 < rs.length := List.length_pos.mpr h
  cases ho : rankOrder pref rs.length with
  | nil => rw [ho] at hlen; simp at hlen; omega
  | cons i t =>
    refine ⟨⟨(rs.getD i ⟨"", ""⟩).modelId, (rs.getD i ⟨"", ""⟩).content, 1,
      wins pref rs.length i⟩,
      (t.enumFrom 2).map (fun pi =>
        ⟨(rs.getD pi.2 ⟨"", ""⟩).modelId, (rs.getD pi.2 ⟨"", ""⟩).content, pi.1,
          wins pref rs.length pi.2⟩), ?_, rfl⟩
    unfold rankList
    rw [ho]
    exact rfl

theorem fallbackRank_length (rs : List ModelResponse) :
    (fallbackRank rs).length = rs.length := by
  simp [fallbackRank, List.enum_eq_enumFrom, List.enumFrom_length]

theorem concatStep_length (acc : String) (r : RankedResponse) :
    acc.length < (concatStep acc r).length := by
  have h1 : (0 : Nat) < "[".length := by decide
  simp only [concatStep, String.length_append]
  omega

theorem foldl_concatStep_length (t : List RankedResponse) :
    ∀ acc : String, acc.length ≤ (t.foldl concatStep acc).length := by
  induction t with
  | nil => intro acc; simp
  | cons r t ih =>
    intro acc
    calc acc.length ≤ (concatStep acc r).length := Nat.le_of_lt (concatStep_length acc r)
      _ ≤ ((r :: t).foldl concatStep acc).length := ih (concatStep acc r)

theorem simpleConcat_ne_empty (top : List RankedResponse) (h : top ≠ []) :
    simpleConcat top ≠ "" := by
  obtain ⟨r, t, rfl⟩ := List.exists_cons_of_ne_nil h
  intro hc
  have h1 : (concatStep "" r).length ≤ (simpleConcat (r :: t)).length :=
    foldl_concatStep_length t (concatStep "" r)
  have h2 : ("" : String).length < (concatStep "" r).length := concatStep_length "" r
  rw [hc] at h1
  have h3 : ("" : String).length = 0 := by decide
  omega

theorem runFusion_empty (d : Deps) (req : FusionRequest) (h : req.responses = []) :
    runFusion d req = Except.error "EmptyInputError" := by
  unfold runFusion
  rw [if_pos h]

theorem runFusion_some (d : Deps) (req : FusionRequest) (pr : String × String)
    (h : req.responses ≠ [])
    (ha : attemptFusion d (decideStrategy req.query req.responses) = some pr) :
    runFusion d req = Except.ok
      { fusedContent := pr.1, rankedResponses := rankedOf d req,
        bestResponse := bestOf d req, fusionMethod := pr.2,
        modelsUsed := (topOf d req).map (fun r => r.modelId), error := none } := by
  unfold runFusion
  rw [if_neg h, ha]

theorem runFusion_fallback (d : Deps) (req : FusionRequest)
    (h : req.responses ≠ [])
    (ha : attemptFusion d (decideStrategy req.query req.responses) = none) :
    runFusion d req = Except.ok
      { fusedContent := simpleConcat (topOf d req), rankedResponses := rankedOf d req,
        bestResponse := bestOf d req, fusionMethod := "simple_concatenation",
        modelsUsed := (topOf d req).map (fun r => r.modelId),
        error := some "fusion attempt failed" } := by
  unfold runFusion
  rw [if_neg h, ha]

theorem rankedOf_length (d : Deps) (req : FusionRequest) :
    (rankedOf d req).length = req.responses.length := by
  unfold rankedOf
  cases d.rankerFails <;> simp [fallbackRank_length, rankList_length]

theorem topOf_ne_nil (d : Deps) (req : FusionRequest) (h : req.responses ≠ [])
    (hk : 1 ≤ req.topK) : topOf d req ≠ [] := by
  have h1 : 0 < req.responses.length := List.length_pos.mpr h
  have h2 : 1 ≤ req.topK.toNat := by omega
  have h3 : (topOf d req).length = min req.topK.toNat (rankedOf d req).length := by
    simp [topOf, selectTopK, List.length_take]
  rw [rankedOf_length] at h3
  refine List.length_pos.mp ?_
  omega

theorem attemptFusion_none (d : Deps) (strat : Strategy)
    (hl : d.localFuse = none) (hc : d.cloudFuse = none) :
    attemptFusion d strat = none := by
  cases strat <;> simp [attemptFusion, hl, hc]

theorem attemptFusion_some (d : Deps) (strat : Strategy) (pr : String × String)
    (h : attemptFusion d strat = some pr) :
    d.cloudFuse = some pr.1 ∨ d.localFuse = some pr.1 := by
  cases strat with
  | CloudFusion =>
    cases hc : d.cloudFuse with
    | none => simp [attemptFusion, hc] at h
    | some s =>
      left
      simp [attemptFusion, hc] at h
      subst h
      rfl
  | LocalGenerativeFusion =>
    cases hc : d.localFuse with
    | none => simp [attemptFusion, hc] at h
    | some s =>
      right
      simp [attemptFusion, hc] at h
      subst h
      rfl

/-- A preference oracle that calls every pair a tie. -/
def prefEq : Pref := fun _ _ => Ordering.eq

/-- A concrete Chinese-query request with two non-empty responses. -/
def reqCN : FusionRequest :=
  ⟨"你好", [⟨"m1", "hello"⟩, ⟨"m2", "world"⟩], "instr", 3, "rank_and_fuse"⟩

/-- A concrete request with an empty response list. -/
def reqEmpty : FusionRequest := ⟨"q", [], "instr", 3, "rank_and_fuse"⟩

/-- Dependencies where both real fusers fail and ranking succeeds. -/
def depsAllFail : Deps := ⟨prefEq, false, none, none⟩

/-- The value of `runFusion depsAllFail reqCN`. -/
def resCN : FusionResult :=
  { fusedContent := "[m1]:\nhello\n---\n[m2]:\nworld\n---\n",
    rankedResponses := [⟨"m1", "hello", 1, 0⟩, ⟨"m2", "world", 2, 0⟩],
    bestResponse := some ⟨"m1", "hello", 1, 0⟩,
    fusionMethod := "simple_concatenation",
    modelsUsed := ["m1", "m2"],
    error := some "fusion attempt failed" }

example : runFusion depsAllFail reqCN = Except.ok resCN := by rfl

/-- Claim C1: for every fusion request with at least one response, and for
every combination of simulated failures of the Ranker, the local Fuser and
the Cloud Fusion Client, the pipeline returns a `FusionResult` and never
raises; and when all real fusion attempts fail the returned result has
`fusionMethod = "simple_concatenation"` and a non-null `error`. -/
theorem fusion_never_raises (d : Deps) (req : FusionRequest)
    (h : req.responses ≠ []) :
    (∃ res, runFusion d req = Except.ok res) ∧
    (d.localFuse = none → d.cloudFuse = none →
      ∃ res, runFusion d req = Except.ok res ∧
        res.fusionMethod = "simple_concatenation" ∧ res.error ≠ none) := by
  constructor
  · cases ha : attemptFusion d (decideStrategy req.query req.responses) with
    | some pr => exact ⟨_, runFusion_some d req pr h ha⟩
    | none => exact ⟨_, runFusion_fallback d req h ha⟩
  · intro hl hc
    have ha := attemptFusion_none d (decideStrategy req.query req.responses) hl hc
    exact ⟨_, runFusion_fallback d req h ha, rfl, by simp⟩

/-- Witness for C1 at a concrete Chinese request with both fusers failing. -/
theorem fusion_never_raises_witness :
    reqCN.responses ≠ [] ∧
    ∃ res, runFusion depsAllFail reqCN = Except.ok res ∧
      res.fusionMethod = "simple_concatenation" ∧ res.error ≠ none :=
  ⟨by decide, (fusion_never_raises depsAllFail reqCN (by decide)).2 rfl rfl⟩

/-- Claim C2: the strategy router selects the CloudFusion branch exactly when
the query or some response content contains a Chinese character, and the
LocalGenerativeFusion branch otherwise. -/
theorem router_chinese_iff (q : String) (rs : List ModelResponse) :
    (decideStrategy q rs = Strategy.CloudFusion ↔
      (isChineseText q = true ∨ ∃ r ∈ rs, isChineseText r.content = true)) ∧
    (decideStrategy q rs = Strategy.LocalGenerativeFusion ↔
      ¬(isChineseText q = true ∨ ∃ r ∈ rs, isChineseText r.content = true)) := by
  unfold decideStrategy
  by_cases hb : (isChineseText q || rs.any (fun r => isChineseText r.content)) = true
  · have hp : isChineseText q = true ∨ ∃ r ∈ rs, isChineseText r.content = true := by
      simpa [List.any_eq_true] using hb
    rw [if_pos hb]
    constructor
    · simp [hp]
    · simp [hp]
  · have hp : ¬(isChineseText q = true ∨ ∃ r ∈ rs, isChineseText r.content = true) := by
      simpa [List.any_eq_true] using hb
    rw [if_neg hb]
    constructor
    · simp [hp]
    · simp [hp]

/-- Claim C3: on every non-empty response list the Ranker keeps the length,
assigns ranks exactly `1..N` in order, assigns each position's `qualityScore`
as the win count of the response placed there, and places the original input
positions in an order that is a permutation of the input sorted descending by
win count with ties broken by input order. -/
theorem ranker_correct (pref : Pref) (rs : List ModelResponse)
    (h : rs ≠ []) :
    (rankList pref rs).length = rs.length ∧
    (rankList pref rs).map (fun r => r.rank) = List.range' 1 rs.length ∧
    (rankList pref rs).map (fun r => r.qualityScore)
      = (rankOrder pref rs.length).map (wins pref rs.length) ∧
    (rankOrder pref rs.length).Perm (List.range rs.length) ∧
    (rankOrder pref rs.length).Pairwise (fun i j =>
      wins pref rs.length j < wins pref rs.length i ∨
        (wins pref rs.length i = wins pref rs.length j ∧ i < j)) :=
  ⟨rankList_length pref rs, rankList_map_rank pref rs, rankList_map_score pref rs,
   rankOrder_perm pref rs.length, rankOrder_sorted pref rs.length⟩

/-- Witness for C3 at a concrete two-response input. -/
theorem ranker_correct_witness :
    ([⟨"m1", "a"⟩, ⟨"m2", "b"⟩] : List ModelResponse) ≠ [] ∧
    (rankList prefEq [⟨"m1", "a"⟩, ⟨"m2", "b"⟩]).length = 2 ∧
    (rankList prefEq [⟨"m1", "a"⟩, ⟨"m2", "b"⟩]).map (fun r => r.rank)
      = List.range' 1 2 :=
  ⟨by decide,
   (ranker_correct prefEq [⟨"m1", "a"⟩, ⟨"m2", "b"⟩] (by decide)).1,
   (ranker_correct prefEq [⟨"m1", "a"⟩, ⟨"m2", "b"⟩] (by decide)).2.1⟩

/-- Claim C4: `isChineseText` returns true exactly when some code point of
its input lies in U+4E00..U+9FFF, and in particular it is false on `""` and
`"hello"` and true on `"你好"` and `"hello 你好"`. -/
theorem isChineseText_spec :
    (∀ s : String, isChineseText s = true ↔
      ∃ c ∈ s.data, 0x4e00 ≤ c.toNat ∧ c.toNat ≤ 0x9fff) ∧
    isChineseText "" = false ∧ isChineseText "你好" = true ∧
    isChineseText "hello" = false ∧ isChineseText "hello 你好" = true := by
  refine ⟨?_, by decide, by decide, by decide, by decide⟩
  intro s
  simp [isChineseText, List.any_eq_true, isChineseChar,
    Bool.and_eq_true, decide_eq_true_eq]

/-- Claim C5: `selectTopK` is total: `k ≤ 0` yields the empty list, the
output length is `min(k, len(ranked))`, and the output is the initial
segment of the ranked list. -/
theorem selectTopK_spec (ranked : List RankedResponse) (k : Int) :
    (k ≤ 0 → selectTopK ranked k = []) ∧
    (selectTopK ranked k).length = min k.toNat ranked.length ∧
    (∀ i : Nat, i < k.toNat → (selectTopK ranked k)[i]? = ranked[i]?) := by
  refine ⟨?_, ?_, ?_⟩
  · intro hk
    have h0 : k.toNat = 0 := Int.toNat_eq_zero.mpr hk
    simp [selectTopK, h0]
  · simp [selectTopK, List.length_take]
  · intro i hi
    simp only [selectTopK]
    exact List.getElem?_take_of_lt hi

/-- Witness for C5 at a concrete list and both a negative and a large `k`. -/
theorem selectTopK_spec_witness :
    ((-1 : Int) ≤ 0 ∧ selectTopK [⟨"m", "c", 1, 0⟩] (-1) = []) ∧
    (selectTopK [⟨"m", "c", 1, 0⟩] 5).length = min (5 : Int).toNat 1 :=
  ⟨⟨by decide, (selectTopK_spec [⟨"m", "c", 1, 0⟩] (-1)).1 (by decide)⟩,
   (selectTopK_spec [⟨"m", "c", 1, 0⟩] 5).2.1⟩

/-- Counterexample to claim C6 as stated: on a Chinese-routed request with
two non-empty responses, a cloud fusion call that succeeds but returns the
empty string is passed through, so `fusedContent` is empty. -/
theorem fusedContent_empty_cex :
    reqCN.responses ≠ [] ∧ (∃ r ∈ reqCN.responses, r.content ≠ "") ∧
    runFusion ⟨prefEq, true, none, some ""⟩ reqCN = Except.ok
      { fusedContent := "",
        rankedResponses := [⟨"m1", "hello", 1, 0⟩, ⟨"m2", "world", 2, 0⟩],
        bestResponse := none, fusionMethod := "cloud_fusion",
        modelsUsed := ["m1", "m2"], error := none } :=
  ⟨by decide, by decide, by rfl⟩

/-- Claim C6 (amended): for every request with at least one response, a
well-formed `topK ≥ 1`, and every dependency behaviour in which a successful
fuser never returns the empty string, the returned `fusedContent` is
non-empty (the simple-concatenation fallback is non-empty unconditionally). -/
theorem fusedContent_ne_empty (d : Deps) (req : FusionRequest)
    (h : req.responses ≠ []) (hk : 1 ≤ req.topK)
    (hl : ∀ s, d.localFuse = some s → s ≠ "")
    (hc : ∀ s, d.cloudFuse = some s → s ≠ "")
    (res : FusionResult) (hres : runFusion d req = Except.ok res) :
    res.fusedContent ≠ "" := by
  cases ha : attemptFusion d (decideStrategy req.query req.responses) with
  | some pr =>
    rw [runFusion_some d req pr h ha] at hres
    injection hres with h2
    subst h2
    cases attemptFusion_some d (decideStrategy req.query req.responses) pr ha with
    | inl hcs => exact hc pr.1 hcs
    | inr hls => exact hl pr.1 hls
  | none =>
    rw [runFusion_fallback d req h ha] at hres
    injection hres with h2
    subst h2
    exact simpleConcat_ne_empty (topOf d req) (topOf_ne_nil d req h hk)

/-- Witness for C6 (amended) at the concrete all-fail Chinese request. -/
theorem fusedContent_ne_empty_witness : resCN.fusedContent ≠ "" :=
  fusedContent_ne_empty depsAllFail reqCN (by decide) (by decide)
    (fun s hs => Option.noConfusion hs) (fun s hs => Option.noConfusion hs)
    resCN (by rfl)

/-- Claim C7: a request with zero responses fails with `EmptyInputError`,
and with at least one response no error whatsoever escapes to the caller. -/
theorem emptyInput_only_hard_failure (d : Deps) (req : FusionRequest) :
    (req.responses = [] → runFusion d req = Except.error "EmptyInputError") ∧
    (req.responses ≠ [] → ∀ e, runFusion d req ≠ Except.error e) := by
  constructor
  · exact runFusion_empty d req
  · intro h e
    cases ha : attemptFusion d (decideStrategy req.query req.responses) with
    | some pr =>
      rw [runFusion_some d req pr h ha]
      simp
    | none =>
      rw [runFusion_fallback d req h ha]
      simp

/-- Witness for C7 at a concrete empty and a concrete non-empty request. -/
theorem emptyInput_only_hard_failure_witness :
    runFusion depsAllFail reqEmpty = Except.error "EmptyInputError" ∧
    runFusion depsAllFail reqCN ≠ Except.error "EmptyInputError" :=
  ⟨(emptyInput_only_hard_failure depsAllFail reqEmpty).1 rfl,
   (emptyInput_only_hard_failure depsAllFail reqCN).2 (by decide) "EmptyInputError"⟩

/-- Claim C8: in every returned `FusionResult`, when ranking succeeded
`bestResponse` is the rank-1 entry of `rankedResponses`, and when ranking
failed `bestResponse` is null. -/
theorem bestResponse_rank_one (d : Deps) (req : FusionRequest)
    (res : FusionResult) (hres : runFusion d req = Except.ok res) :
    (d.rankerFails = false →
      ∃ r, res.bestResponse = some r ∧ r ∈ res.rankedResponses ∧ r.rank = 1) ∧
    (d.rankerFails = true → res.bestResponse = none) := by
  have h : req.responses ≠ [] := by
    intro hcon
    rw [runFusion_empty d req hcon] at hres
    exact Except.noConfusion hres
  have hfields : res.bestResponse = bestOf d req ∧
      res.rankedResponses = rankedOf d req := by
    cases ha : attemptFusion d (decideStrategy req.query req.responses) with
    | some pr =>
      rw [runFusion_some d req pr h ha] at hres
      injection hres with h2
      subst h2
      exact ⟨rfl, rfl⟩
    | none =>
      rw [runFusion_fallback d req h ha] at hres
      injection hres with h2
      subst h2
      exact ⟨rfl, rfl⟩
  obtain ⟨hbest, hranked⟩ := hfields
  constructor
  · intro hrf
    rw [hbest, hranked]
    unfold bestOf rankedOf
    rw [hrf]
    simp only [Bool.false_eq_true, if_false]
    obtain ⟨r, t, hrt, hr1⟩ := rankList_cons d.pref req.responses h
    refine ⟨r, ?_, ?_, hr1⟩
    · rw [hrt]
      exact List.find?_cons_of_pos _ (by simp [hr1])
    · rw [hrt]
      exact List.mem_cons_self r t
  · intro hrf
    rw [hbest]
    unfold bestOf
    simp [hrf]

/-- Witness for C8 at the concrete all-fail Chinese request, whose ranking
succeeds. -/
theorem bestResponse_rank_one_witness :
    ∃ r, resCN.bestResponse = some r ∧ r ∈ resCN.rankedResponses ∧ r.rank = 1 :=
  (bestResponse_rank_one depsAllFail reqCN resCN (by rfl)).1 rfl

/-- Claim C9: the front end starts fusion after `all_complete` exactly when
the merge toggle is on, more than one response came back, and at least two
of them have status `"success"`. -/
theorem fusion_condition (m : Bool) (rs : List StreamResponse) :
    fusionInvoked m rs = true ↔
      (m = true ∧ 1 < rs.length ∧ 2 ≤ (successFilter rs).length) := by
  unfold fusionInvoked
  by_cases h1 : (m && decide (1 < rs.length)) = true
  · rw [if_pos h1]
    simp only [Bool.and_eq_true, decide_eq_true_eq] at h1
    simp [h1, Nat.succ_le_iff]
  · rw [if_neg h1]
    simp only [Bool.and_eq_true, decide_eq_true_eq, not_and_or] at h1
    simp only [Bool.false_eq_true, false_iff, not_and_or]
    rcases h1 with h1 | h1
    · left
      simpa using h1
    · right
      left
      exact h1

/-- Claim C10: the advanced-fusion request built by the front end's
`fusionResponses` always carries `fusionMethod = "rank_and_fuse"` and
`topK = min(3, responses.length)`, so `topK` never exceeds the number of
responses nor 3. -/
theorem advancedFusionBody_fields (q : String) (rs : List StreamResponse)
    (h : rs ≠ []) :
    (advancedFusionBody q rs).fusionMethod = "rank_and_fuse" ∧
    (advancedFusionBody q rs).topK = min 3 rs.length ∧
    (advancedFusionBody q rs).topK ≤ rs.length ∧
    (advancedFusionBody q rs).topK ≤ 3 := by
  refine ⟨rfl, rfl, ?_, ?_⟩ <;> simp [advancedFusionBody]

/-- Witness for C10 at a concrete single-response call. -/
theorem advancedFusionBody_fields_witness :
    ([⟨"a", "x", "success"⟩] : List StreamResponse) ≠ [] ∧
    (advancedFusionBody "q" [⟨"a", "x", "success"⟩]).topK = 1 :=
  ⟨by decide,
   (advancedFusionBody_fields "q" [⟨"a", "x", "success"⟩] (by decide)).2.1⟩

end Aibot
